import Mathlib

/-!
Verification of the MCP binary-transfer extension
(`src/schema/binary-transfer-extension.ts` plus the accompanying
design of the negotiation, registry, coordinator and stream-framing
behaviour).  Type declarations and the two utility functions are
embedded directly from the TypeScript source; behavioural components
that the repository describes only in its specification are modelled
from the spec and marked as such.
-/

namespace MCPBinary

/-- Available binary transfer modes
(source: `type BinaryTransferMode = "stream" | "multipart" | "websocket-binary"`). -/
inductive BinaryTransferMode
  | stream
  | multipart
  | websocketBinary
deriving DecidableEq, Repr

/-- Binary transfer capability for client/server negotiation
(source: `interface BinaryTransferCapability`). `maxBinarySize` is optional. -/
structure BinaryTransferCapability where
  supported : Bool
  maxBinarySize : Option Nat
  supportedModes : List BinaryTransferMode
deriving DecidableEq, Repr

/-- Reference to binary data that will be transferred separately
(source: `interface BinaryReference`). -/
structure BinaryReference where
  streamId : String
  size : Nat
  checksum : Option String
  mimeType : String
deriving DecidableEq, Repr

/-- Content type tag (source: `type: "image" | "audio" | "blob"`). -/
inductive ContentType
  | image
  | audio
  | blob
deriving DecidableEq, Repr

/-- Transfer-mode tag of a content item
(source: `transferMode?: "base64" | "binary"`). -/
inductive TransferModeTag
  | base64
  | binary
deriving DecidableEq, Repr

/-- Extended content type that supports both base64 and binary transfer
(source: `interface BinaryTransferContent`); the optional fields of the
TypeScript interface become `Option`. -/
structure BinaryTransferContent where
  type : ContentType
  transferMode : Option TransferModeTag
  mimeType : String
  data : Option String
  binaryRef : Option BinaryReference
deriving DecidableEq, Repr

/-- Utility function to check if content uses binary transfer
(source: `isBinaryTransfer`, line 225:
`content.transferMode === "binary" && content.binaryRef !== undefined`). -/
def isBinaryTransfer (content : BinaryTransferContent) : Bool :=
  content.transferMode == some TransferModeTag.binary && content.binaryRef.isSome

/-- Utility function to calculate base64 overhead
(source: `calculateBase64Overhead`, line 232:
`Math.ceil(binarySize * 4 / 3) - binarySize`, read in exact arithmetic). -/
def calculateBase64Overhead (binarySize : Nat) : Int :=
  ⌈(binarySize * 4 / 3 : ℚ)⌉ - binarySize

/-- Modelled from the spec: the interpretation of a content item's
`transferMode` tag by a consumer.  The source file only declares the field
with `@default "base64"`; the spec states that absence of the tag MUST be
interpreted as base64, never as an error (the function is total) and never
as binary transfer. -/
def interpretTransferMode (c : BinaryTransferContent) : TransferModeTag :=
  c.transferMode.getD TransferModeTag.base64

/-- Modelled from the spec: capability negotiation result
(`EffectiveCapability`), the intersection of two peers' binary-transfer
capabilities for a session. -/
structure EffectiveCapability where
  supported : Bool
  effectiveModes : List BinaryTransferMode
  maxBinarySize : Option Nat
deriving DecidableEq, Repr

/-- Modelled from the spec: `negotiate(local, remote)` —
`supported = local.supported AND remote.supported`,
`effectiveModes = local.supportedModes ∩ remote.supportedModes`,
`maxBinarySize = min(local.maxBinarySize, remote.maxBinarySize)` treating an
absent bound as unlimited. -/
def negotiate (l r : BinaryTransferCapability) : EffectiveCapability where
  supported := l.supported && r.supported
  effectiveModes := l.supportedModes.filter (fun m => decide (m ∈ r.supportedModes))
  maxBinarySize :=
    match l.maxBinarySize, r.maxBinarySize with
    | none, b => b
    | some a, none => some a
    | some a, some b => some (min a b)

/-- Interpretation of an optional byte bound in the extended naturals:
an absent bound means unlimited. -/
def limitOf : Option Nat → ℕ∞
  | none => ⊤
  | some n => (n : ℕ∞)

/-- Modelled from the spec: the error taxonomy of §7 (`CapabilityMismatch`,
`PayloadTooLarge`, `DuplicateStreamId`, `NotFound`, `ChecksumMismatch`,
`TransportFailure`) plus `AlreadyTerminal` from the registry contract. -/
inductive TransferError
  | CapabilityMismatch
  | PayloadTooLarge
  | DuplicateStreamId
  | NotFound
  | AlreadyTerminal
  | ChecksumMismatch
  | TransportFailure
deriving DecidableEq, Repr

/-- Modelled from the spec: the per-streamId transfer descriptor states
`Registered -> Active -> {Completed, Aborted}`. -/
inductive TransferState
  | Registered
  | Active
  | Completed
  | Aborted
deriving DecidableEq, Repr

/-- A state is terminal when it is `Completed` or `Aborted`. -/
def isTerminal : TransferState → Bool
  | TransferState.Completed => true
  | TransferState.Aborted => true
  | _ => false

/-- Modelled from the spec: receiver-side completion of `beginReceive` —
once all bytes are read, the running checksum (computed by `checksumFn`,
abstracting SHA-256) is verified against the declared `expectedChecksum` if
present; a mismatch fails with `ChecksumMismatch` and finalizes the
descriptor `Aborted`; absence of an expected checksum is not an error and
finalizes as `Completed`. -/
def finishReceive (checksumFn : List Nat → String) (expected : Option String)
    (data : List Nat) : Except TransferError (List Nat) × TransferState :=
  match expected with
  | none => (Except.ok data, TransferState.Completed)
  | some e =>
    if checksumFn data = e then (Except.ok data, TransferState.Completed)
    else (Except.error TransferError.ChecksumMismatch, TransferState.Aborted)

/-- Whether a payload size passes an optional negotiated bound
(absent bound = unlimited). -/
def withinLimit (size : Nat) (bound : Option Nat) : Bool :=
  match bound with
  | none => true
  | some m => size ≤ m

/-- Outcome of the size-limit check performed before `beginSend`. -/
structure SendStart where
  result : Except TransferError BinaryReference
  bytesTransferred : Nat
  binaryModeChosen : Bool
deriving Repr

/-- Modelled from the spec: size-limit enforcement before `beginSend` — the
coordinator checks `size <= EffectiveCapability.maxBinarySize`; exceeding it
fails fast with `PayloadTooLarge` before any bytes are transferred (no
chunked streaming is attempted); otherwise binary mode is chosen and a
`BinaryReference` is produced. -/
def beginSend (cap : EffectiveCapability) (streamId mimeType : String)
    (size : Nat) (checksum : Option String) : SendStart :=
  if withinLimit size cap.maxBinarySize then
    { result := Except.ok ⟨streamId, size, checksum, mimeType⟩
      bytesTransferred := size
      binaryModeChosen := true }
  else
    { result := Except.error TransferError.PayloadTooLarge
      bytesTransferred := 0
      binaryModeChosen := false }

/-- Parameters of a progress notification (source:
`BinaryTransferProgressNotification`, method `"notifications/binary/progress"`,
params `{streamId, bytesTransferred, totalBytes, complete}`). -/
structure ProgressParams where
  streamId : String
  bytesTransferred : Nat
  totalBytes : Nat
  complete : Bool
deriving DecidableEq, Repr

/-- Total number of payload bytes across a chunk sequence. -/
def totalSize (chunks : List (List Nat)) : Nat :=
  (chunks.map List.length).sum

/-- Cumulative byte counts observed after each chunk, starting from `acc`
bytes already transferred. -/
def cumulativeBytes : List (List Nat) → Nat → List Nat
  | [], _ => []
  | c :: cs, acc => (acc + c.length) :: cumulativeBytes cs (acc + c.length)

/-- Modelled from the spec: the sender drives the chosen adapter chunk by
chunk, updating the registry after each chunk and emitting progress
notifications; the final notification has `complete = true` and
`bytesTransferred == totalSize`. -/
def sendProgressNotifications (sid : String) (chunks : List (List Nat)) :
    List ProgressParams :=
  (cumulativeBytes chunks 0).map
      (fun b => ⟨sid, b, totalSize chunks, false⟩) ++
    [⟨sid, totalSize chunks, totalSize chunks, true⟩]

/-- Modelled from the spec: the effective byte window `[start, stop)` of a
partial-range request. -/
def rangeWindow (data : List Nat) (start : Nat) (stop : Nat) : List Nat :=
  (data.take stop).drop start

/-- Modelled from the spec: the receiver entry point, dispatching on the
optional `range` parameter of a `binary/transfer` request — a full read runs
checksum verification (`finishReceive`), while a range read returns the
requested window and skips verification entirely. -/
def receiveRequest (checksumFn : List Nat → String) (expected : Option String)
    (data : List Nat) (range : Option (Nat × Option Nat)) :
    Except TransferError (List Nat) × TransferState :=
  match range with
  | none => finishReceive checksumFn expected data
  | some (s, e) =>
    (Except.ok (rangeWindow data s (e.getD data.length)), TransferState.Completed)

/-- A terminal outcome passed to `finalize` (Completed or Aborted). -/
inductive Outcome
  | Completed
  | Aborted
deriving DecidableEq, Repr

/-- The transfer state corresponding to a terminal outcome. -/
def outcomeState : Outcome → TransferState
  | Outcome.Completed => TransferState.Completed
  | Outcome.Aborted => TransferState.Aborted

/-- A mutating registry operation on one stream's descriptor:
`updateProgress` or `finalize`. -/
inductive RegistryOp
  | update (bytes : Nat)
  | finalize (outcome : Outcome)
deriving DecidableEq, Repr

/-- Modelled from the spec: the per-streamId state machine
`Registered -> Active -> {Completed, Aborted}` — `Active` on first chunk,
terminal states final, `updateProgress` on a terminal descriptor fails with
`AlreadyTerminal`. -/
def stepDescriptor (s : TransferState) : RegistryOp → Except TransferError TransferState
  | RegistryOp.update _ =>
    match s with
    | TransferState.Registered => Except.ok TransferState.Active
    | TransferState.Active => Except.ok TransferState.Active
    | _ => Except.error TransferError.AlreadyTerminal
  | RegistryOp.finalize o =>
    match s with
    | TransferState.Registered => Except.ok (outcomeState o)
    | TransferState.Active => Except.ok (outcomeState o)
    | _ => Except.error TransferError.AlreadyTerminal

/-- Run a sequence of registry operations on a descriptor state; a failing
operation leaves the state unchanged. -/
def runOps (s : TransferState) : List RegistryOp → TransferState
  | [] => s
  | op :: ops =>
    match stepDescriptor s op with
    | Except.ok s2 => runOps s2 ops
    | Except.error _ => runOps s ops

/-- Magic bytes identifying an MCP binary stream: `"MCP\0"`
(source: `magic: [0x4D, 0x43, 0x50, 0x00]`). -/
def magicBytes : List Nat := [0x4D, 0x43, 0x50, 0x00]

/-- Binary stream header for stream mode (source: `BinaryStreamHeader`):
uint32 `version`, 16-byte `streamId`, uint64 `size`, optional uint32
`flags`. -/
structure BinaryStreamHeader where
  version : Nat
  streamId : List Nat
  size : Nat
  flags : Option Nat
deriving DecidableEq, Repr

/-- Little-endian encoding of `n` into `w` bytes. -/
def toLE : Nat → Nat → List Nat
  | 0, _ => []
  | w + 1, n => n % 256 :: toLE w (n / 256)

/-- Little-endian decoding of a byte list. -/
def fromLE : List Nat → Nat
  | [] => 0
  | b :: bs => b + 256 * fromLE bs

/-- The encoded optional flags field: absent, or 4 bytes. -/
def flagsBytes (h : BinaryStreamHeader) : List Nat :=
  match h.flags with
  | none => []
  | some f => toLE 4 f

/-- Modelled from the spec: the stream-adapter wire header
`magic(4) | version(4) | streamId(16) | size(8, little-endian) |
flags(optional 4)`. -/
def encodeHeader (h : BinaryStreamHeader) : List Nat :=
  magicBytes ++
    (toLE 4 h.version ++ (h.streamId ++ (toLE 8 h.size ++ flagsBytes h)))

/-- A full stream-mode frame: the header followed by exactly the payload. -/
def encodeFrame (h : BinaryStreamHeader) (payload : List Nat) : List Nat :=
  encodeHeader h ++ payload

/-- Length in bytes of the encoded header. -/
def headerLength (h : BinaryStreamHeader) : Nat :=
  match h.flags with
  | none => 32
  | some _ => 36

end MCPBinary

namespace MCPBinary

/-- The ceiling of `n * 4 / 3` over ℚ agrees with the closed natural-number
form `(4 * n + 2) / 3` (floor division). -/
theorem ceil_mul_four_div_three (n : Nat) :
    ⌈(n * 4 / 3 : ℚ)⌉ = ((4 * n + 2) / 3 : Nat) := by
  have h3 : (0:ℚ) < 3 := by norm_num
  have hmod : 4 * n + 2 = 3 * ((4 * n + 2) / 3) + (4 * n + 2) % 3 :=
    (Nat.div_add_mod (4 * n + 2) 3).symm ▸ by omega
  have hr : (4 * n + 2) % 3 < 3 := Nat.mod_lt _ (by omega)
  set q := (4 * n + 2) / 3 with hq
  rw [Int.ceil_eq_iff]
  constructor
  · rw [lt_div_iff₀ h3]
    push_cast
    have : 3 * q ≤ 4 * n + 2 := by omega
    have h2 : (3 * q : ℚ) ≤ 4 * n + 2 := by exact_mod_cast this
    nlinarith
  · rw [div_le_iff₀ h3]
    push_cast
    have : 4 * n ≤ 3 * q := by omega
    have h2 : (4 * n : ℚ) ≤ 3 * q := by exact_mod_cast this
    nlinarith

/-- The overhead has a closed natural-number form. -/
theorem calculateBase64Overhead_closed (n : Nat) :
    calculateBase64Overhead n = ((4 * n + 2) / 3 : Nat) - (n : Int) := by
  unfold calculateBase64Overhead
  rw [ceil_mul_four_div_three]

/-- The overhead equals the natural number `(n + 2) / 3` (a ceiling of `n / 3`). -/
theorem calculateBase64Overhead_eq_ceilThird (n : Nat) :
    calculateBase64Overhead n = (((n + 2) / 3 : Nat) : Int) := by
  rw [calculateBase64Overhead_closed]
  have h : ((4 * n + 2) / 3 : Nat) = n + (n + 2) / 3 := by omega
  rw [h]
  push_cast
  ring

/-- Shared characterisation of `isBinaryTransfer`: it returns `true` exactly
when the `transferMode` tag equals `"binary"` and `binaryRef` is present. -/
theorem isBinaryTransfer_eq_true_iff (c : BinaryTransferContent) :
    isBinaryTransfer c = true ↔
      (c.transferMode = some TransferModeTag.binary ∧ c.binaryRef.isSome = true) := by
  simp [isBinaryTransfer]

/-- C9: `isBinaryTransfer` returns `true` iff `transferMode` equals
`"binary"` and `binaryRef` is defined; content with `transferMode = "binary"`
but no `binaryRef` is therefore classified `false`, and the function is total
(returns a `Bool`, never an error). -/
theorem claim_C9 (c : BinaryTransferContent) :
    (isBinaryTransfer c = true ↔
      (c.transferMode = some TransferModeTag.binary ∧ c.binaryRef.isSome = true)) ∧
    (isBinaryTransfer c = true ∨ isBinaryTransfer c = false) := by
  refine ⟨isBinaryTransfer_eq_true_iff c, ?_⟩
  cases h : isBinaryTransfer c
  · exact Or.inr rfl
  · exact Or.inl rfl

/-- C1: when the `transferMode` tag is absent the content is interpreted as
base64 content — never as an error (the interpretation is total) and never as
a binary transfer — and classification as a binary transfer requires the tag
to be present and equal to `"binary"`. -/
theorem claim_C1 (c : BinaryTransferContent) (h : c.transferMode = none) :
    interpretTransferMode c = TransferModeTag.base64 ∧
    isBinaryTransfer c = false ∧
    (∀ c2 : BinaryTransferContent, isBinaryTransfer c2 = true →
      c2.transferMode = some TransferModeTag.binary) := by
  refine ⟨?_, ?_, ?_⟩
  · simp [interpretTransferMode, h]
  · simp [isBinaryTransfer, h]
  · intro c2 h2
    exact ((isBinaryTransfer_eq_true_iff c2).mp h2).1

/-- Witness for C1 at a concrete content item with no `transferMode` tag. -/
theorem claim_C1_witness :
    interpretTransferMode
        ⟨ContentType.image, none, "image/png", some "QUJD", none⟩ =
      TransferModeTag.base64 ∧
    isBinaryTransfer
        ⟨ContentType.image, none, "image/png", some "QUJD", none⟩ = false ∧
    (∀ c2 : BinaryTransferContent, isBinaryTransfer c2 = true →
      c2.transferMode = some TransferModeTag.binary) :=
  claim_C1 ⟨ContentType.image, none, "image/png", some "QUJD", none⟩ rfl

/-- C2: negotiation takes the conjunction of the `supported` flags (false as
soon as either side reports false), intersects the mode sets, and takes the
minimum of the size bounds with an absent bound treated as unlimited. -/
theorem claim_C2 (l r : BinaryTransferCapability) :
    (negotiate l r).supported = (l.supported && r.supported) ∧
    ((negotiate l r).supported = true ↔ (l.supported = true ∧ r.supported = true)) ∧
    (∀ m, m ∈ (negotiate l r).effectiveModes ↔
      (m ∈ l.supportedModes ∧ m ∈ r.supportedModes)) ∧
    limitOf (negotiate l r).maxBinarySize =
      min (limitOf l.maxBinarySize) (limitOf r.maxBinarySize) := by
  refine ⟨rfl, ?_, ?_, ?_⟩
  · simp [negotiate]
  · intro m
    simp [negotiate, List.mem_filter]
  · rcases hl : l.maxBinarySize with _ | a <;> rcases hr : r.maxBinarySize with _ | b <;>
      simp [negotiate, limitOf, hl, hr] <;> exact_mod_cast rfl

/-- C10: `calculateBase64Overhead n` equals `ceil(4*n/3) - n`; it is
non-negative, zero exactly when `n` is zero, and monotonically non-decreasing. -/
theorem claim_C10 (n m : Nat) (h : n ≤ m) :
    calculateBase64Overhead n = ⌈(4 * n / 3 : ℚ)⌉ - n ∧
    0 ≤ calculateBase64Overhead n ∧
    (calculateBase64Overhead n = 0 ↔ n = 0) ∧
    calculateBase64Overhead n ≤ calculateBase64Overhead m := by
  refine ⟨?_, ?_, ?_, ?_⟩
  · unfold calculateBase64Overhead
    congr 2
    ring
  · rw [calculateBase64Overhead_eq_ceilThird]
    positivity
  · rw [calculateBase64Overhead_eq_ceilThird]
    constructor
    · intro h2
      have h3 : ((n + 2) / 3 : Nat) = 0 := by exact_mod_cast h2
      omega
    · intro h2
      subst h2
      norm_num
  · rw [calculateBase64Overhead_eq_ceilThird, calculateBase64Overhead_eq_ceilThird]
    have h3 : (n + 2) / 3 ≤ (m + 2) / 3 := by omega
    exact_mod_cast h3

/-- Witness for C10 at the concrete pair `n = 2`, `m = 5`. -/
theorem claim_C10_witness :
    calculateBase64Overhead 2 = ⌈(4 * 2 / 3 : ℚ)⌉ - 2 ∧
    0 ≤ calculateBase64Overhead 2 ∧
    (calculateBase64Overhead 2 = 0 ↔ (2 : Nat) = 0) ∧
    calculateBase64Overhead 2 ≤ calculateBase64Overhead 5 :=
  claim_C10 2 5 (by norm_num)

/-- C3: on receive completion, a checksum mismatch over the complete byte
sequence fails with `ChecksumMismatch` and finalizes the descriptor in the
terminal `Aborted` state; when no checksum was declared, the transfer
finalizes as `Completed` with no error. -/
theorem claim_C3 (fn : List Nat → String) (e : String) (data : List Nat) :
    (fn data ≠ e →
      finishReceive fn (some e) data =
        (Except.error TransferError.ChecksumMismatch, TransferState.Aborted) ∧
      isTerminal (finishReceive fn (some e) data).2 = true) ∧
    finishReceive fn none data = (Except.ok data, TransferState.Completed) := by
  refine ⟨?_, rfl⟩
  intro h
  have hm : finishReceive fn (some e) data =
      (Except.error TransferError.ChecksumMismatch, TransferState.Aborted) := by
    simp only [finishReceive]
    rw [if_neg h]
  exact ⟨hm, by rw [hm]; rfl⟩

/-- Witness for C3 at a concrete corrupted transfer: declared checksum `"bb"`,
computed checksum `"aa"`. -/
theorem claim_C3_witness :
    finishReceive (fun _ => "aa") (some "bb") [1, 2, 3] =
      (Except.error TransferError.ChecksumMismatch, TransferState.Aborted) ∧
    isTerminal (finishReceive (fun _ => "aa") (some "bb") [1, 2, 3]).2 = true :=
  (claim_C3 (fun _ => "aa") "bb" [1, 2, 3]).1 (by decide)

/-- Bridge between the boolean size check and its extended-natural reading. -/
theorem withinLimit_iff (size : Nat) (bound : Option Nat) :
    withinLimit size bound = true ↔ (size : ℕ∞) ≤ limitOf bound := by
  cases bound <;> simp [withinLimit, limitOf]

/-- C5: a payload whose size exceeds the negotiated `maxBinarySize` fails fast
with `PayloadTooLarge` before any bytes are transferred; a payload within the
bound never raises `PayloadTooLarge` and binary mode is chosen. -/
theorem claim_C5 (cap : EffectiveCapability) (sid mt : String) (size : Nat)
    (ck : Option String) :
    (¬ ((size : ℕ∞) ≤ limitOf cap.maxBinarySize) →
      beginSend cap sid mt size ck =
        { result := Except.error TransferError.PayloadTooLarge
          bytesTransferred := 0
          binaryModeChosen := false }) ∧
    (((size : ℕ∞) ≤ limitOf cap.maxBinarySize) →
      (beginSend cap sid mt size ck).result ≠
        Except.error TransferError.PayloadTooLarge ∧
      (beginSend cap sid mt size ck).binaryModeChosen = true) := by
  constructor
  · intro h
    have hw : ¬ (withinLimit size cap.maxBinarySize = true) := fun hc =>
      h ((withinLimit_iff size cap.maxBinarySize).mp hc)
    unfold beginSend
    rw [if_neg hw]
  · intro h
    have hw : withinLimit size cap.maxBinarySize = true :=
      (withinLimit_iff size cap.maxBinarySize).mpr h
    unfold beginSend
    rw [if_pos hw]
    exact ⟨by simp, rfl⟩

/-- Witness for C5 at the spec scenario: payload 5,242,880 bytes against a
52,428,800-byte bound — binary mode chosen, `PayloadTooLarge` never raised. -/
theorem claim_C5_witness :
    (beginSend ⟨true, [BinaryTransferMode.stream], some 52428800⟩ "550e8400"
        "image/png" 5242880 none).result ≠
      Except.error TransferError.PayloadTooLarge ∧
    (beginSend ⟨true, [BinaryTransferMode.stream], some 52428800⟩ "550e8400"
        "image/png" 5242880 none).binaryModeChosen = true :=
  (claim_C5 ⟨true, [BinaryTransferMode.stream], some 52428800⟩ "550e8400"
      "image/png" 5242880 none).2
    (by
      simp [limitOf]
      exact_mod_cast (by norm_num : (5242880 : Nat) ≤ 52428800))

/-- `totalSize` distributes over a leading chunk. -/
theorem totalSize_cons (c : List Nat) (cs : List (List Nat)) :
    totalSize (c :: cs) = c.length + totalSize cs := by
  simp [totalSize]

/-- Every cumulative byte count lies between the starting count and the
starting count plus the remaining payload. -/
theorem cumulativeBytes_mem_bounds (cs : List (List Nat)) (acc : Nat) :
    ∀ x ∈ cumulativeBytes cs acc, acc ≤ x ∧ x ≤ acc + totalSize cs := by
  induction cs generalizing acc with
  | nil =>
    intro x hx
    simp [cumulativeBytes] at hx
  | cons c cs ih =>
    intro x hx
    rw [totalSize_cons]
    simp only [cumulativeBytes, List.mem_cons] at hx
    rcases hx with rfl | hx
    · omega
    · have hb := ih (acc + c.length) x hx
      omega

/-- Cumulative byte counts are non-decreasing. -/
theorem cumulativeBytes_pairwise (cs : List (List Nat)) (acc : Nat) :
    List.Pairwise (· ≤ ·) (cumulativeBytes cs acc) := by
  induction cs generalizing acc with
  | nil => simp [cumulativeBytes]
  | cons c cs ih =>
    simp only [cumulativeBytes]
    rw [List.pairwise_cons]
    refine ⟨?_, ih (acc + c.length)⟩
    intro x hx
    exact (cumulativeBytes_mem_bounds cs (acc + c.length) x hx).1

/-- The `bytesTransferred` projection of the notification stream. -/
theorem sendProgressNotifications_map_bytes (sid : String)
    (chunks : List (List Nat)) :
    (sendProgressNotifications sid chunks).map ProgressParams.bytesTransferred =
      cumulativeBytes chunks 0 ++ [totalSize chunks] := by
  simp only [sendProgressNotifications, List.map_append, List.map_map,
    List.map_cons, List.map_nil]
  congr 1
  exact List.map_id _

/-- C4: across the progress notifications of a transfer, `bytesTransferred`
is monotonically non-decreasing, never exceeds `totalBytes` (the total size),
and the final notification has `complete = true` with `bytesTransferred`
equal to the total. -/
theorem claim_C4 (sid : String) (chunks : List (List Nat)) :
    List.Pairwise (· ≤ ·)
      ((sendProgressNotifications sid chunks).map ProgressParams.bytesTransferred) ∧
    (∀ p ∈ sendProgressNotifications sid chunks,
      p.bytesTransferred ≤ p.totalBytes ∧ p.totalBytes = totalSize chunks) ∧
    (sendProgressNotifications sid chunks).getLast? =
      some ⟨sid, totalSize chunks, totalSize chunks, true⟩ := by
  refine ⟨?_, ?_, ?_⟩
  · rw [sendProgressNotifications_map_bytes, List.pairwise_append]
    refine ⟨cumulativeBytes_pairwise chunks 0, by simp, ?_⟩
    intro a ha b hb
    simp only [List.mem_singleton] at hb
    subst hb
    have hbd := (cumulativeBytes_mem_bounds chunks 0 a ha).2
    omega
  · intro p hp
    simp only [sendProgressNotifications, List.mem_append, List.mem_map,
      List.mem_singleton] at hp
    rcases hp with ⟨b, hb, rfl⟩ | rfl
    · exact ⟨by simpa using (cumulativeBytes_mem_bounds chunks 0 b hb).2, rfl⟩
    · exact ⟨le_refl _, rfl⟩
  · simp [sendProgressNotifications, List.getLast?_concat]

/-- Witness for C4 at the concrete two-chunk transfer `[[1], [2, 3]]`. -/
theorem claim_C4_witness :
    List.Pairwise (· ≤ ·)
      ((sendProgressNotifications "s" [[1], [2, 3]]).map
        ProgressParams.bytesTransferred) ∧
    ((ProgressParams.mk "s" 1 3 false).bytesTransferred ≤
        (ProgressParams.mk "s" 1 3 false).totalBytes ∧
      (ProgressParams.mk "s" 1 3 false).totalBytes = totalSize [[1], [2, 3]]) ∧
    (sendProgressNotifications "s" [[1], [2, 3]]).getLast? =
      some ⟨"s", totalSize [[1], [2, 3]], totalSize [[1], [2, 3]], true⟩ :=
  ⟨(claim_C4 "s" [[1], [2, 3]]).1,
   (claim_C4 "s" [[1], [2, 3]]).2.1 ⟨"s", 1, 3, false⟩
     (by simp [sendProgressNotifications, cumulativeBytes, totalSize]),
   (claim_C4 "s" [[1], [2, 3]]).2.2⟩

/-- C6: a partial-range request `[start, end)` on registered data returns
exactly `end - start` bytes equal to that window of the source sequence, and
never fails with `ChecksumMismatch` even when a checksum is declared, since
range reads skip verification. -/
theorem claim_C6 (fn : List Nat → String) (expected : Option String)
    (data : List Nat) (s e : Nat) (h1 : s ≤ e) (h2 : e ≤ data.length) :
    ∃ bytes,
      receiveRequest fn expected data (some (s, some e)) =
        (Except.ok bytes, TransferState.Completed) ∧
      bytes.length = e - s ∧
      (∀ i, i < e - s → bytes[i]? = data[s + i]?) ∧
      (receiveRequest fn expected data (some (s, some e))).1 ≠
        Except.error TransferError.ChecksumMismatch := by
  have heq : receiveRequest fn expected data (some (s, some e)) =
      (Except.ok (rangeWindow data s e), TransferState.Completed) := rfl
  refine ⟨rangeWindow data s e, heq, ?_, ?_, ?_⟩
  · simp only [rangeWindow, List.length_drop, List.length_take]
    omega
  · intro i hi
    simp only [rangeWindow]
    rw [List.getElem?_drop, List.getElem?_take]
    rw [if_pos (by omega)]
  · rw [heq]
    simp

/-- Witness for C6 at the concrete window `[1, 3)` of `[10, 20, 30, 40]`. -/
theorem claim_C6_witness :
    ∃ bytes,
      receiveRequest (fun _ => "aa") (some "cs") [10, 20, 30, 40]
          (some (1, some 3)) =
        (Except.ok bytes, TransferState.Completed) ∧
      bytes.length = 3 - 1 ∧
      (∀ i, i < 3 - 1 → bytes[i]? = [10, 20, 30, 40][1 + i]?) ∧
      (receiveRequest (fun _ => "aa") (some "cs") [10, 20, 30, 40]
          (some (1, some 3))).1 ≠
        Except.error TransferError.ChecksumMismatch :=
  claim_C6 (fun _ => "aa") (some "cs") [10, 20, 30, 40] 1 3 (by norm_num)
    (by norm_num)

/-- On a terminal descriptor every registry operation fails with
`AlreadyTerminal`. -/
theorem stepDescriptor_terminal (s : TransferState) (op : RegistryOp)
    (h : isTerminal s = true) :
    stepDescriptor s op = Except.error TransferError.AlreadyTerminal := by
  cases op <;> cases s <;> simp_all [isTerminal, stepDescriptor]

/-- C7: the descriptor state follows
`Registered -> Active -> {Completed, Aborted}` — terminal states are never
left (any operation sequence keeps the state fixed), every `updateProgress`
on a terminal descriptor fails with `AlreadyTerminal`, and every successful
transition is an edge of the machine. -/
theorem claim_C7 :
    (∀ s b, isTerminal s = true →
      stepDescriptor s (RegistryOp.update b) =
        Except.error TransferError.AlreadyTerminal) ∧
    (∀ s ops, isTerminal s = true → runOps s ops = s) ∧
    (∀ s op s2, stepDescriptor s op = Except.ok s2 →
      isTerminal s = false ∧
      ((s = TransferState.Registered ∧ s2 = TransferState.Active) ∨
       (s = TransferState.Active ∧ s2 = TransferState.Active) ∨
       isTerminal s2 = true)) := by
  refine ⟨?_, ?_, ?_⟩
  · intro s b h
    exact stepDescriptor_terminal s (RegistryOp.update b) h
  · intro s ops h
    induction ops with
    | nil => rfl
    | cons op ops ih =>
      show runOps s (op :: ops) = s
      simp only [runOps, stepDescriptor_terminal s op h]
      exact ih
  · intro s op s2 h
    cases op with
    | update b =>
      cases s with
      | Registered =>
        simp only [stepDescriptor, Except.ok.injEq] at h
        exact ⟨rfl, Or.inl ⟨rfl, h.symm⟩⟩
      | Active =>
        simp only [stepDescriptor, Except.ok.injEq] at h
        exact ⟨rfl, Or.inr (Or.inl ⟨rfl, h.symm⟩)⟩
      | Completed => simp [stepDescriptor] at h
      | Aborted => simp [stepDescriptor] at h
    | finalize o =>
      cases s with
      | Registered =>
        simp only [stepDescriptor, Except.ok.injEq] at h
        refine ⟨rfl, Or.inr (Or.inr ?_)⟩
        rw [← h]
        cases o <;> rfl
      | Active =>
        simp only [stepDescriptor, Except.ok.injEq] at h
        refine ⟨rfl, Or.inr (Or.inr ?_)⟩
        rw [← h]
        cases o <;> rfl
      | Completed => simp [stepDescriptor] at h
      | Aborted => simp [stepDescriptor] at h

/-- Witness for C7 at concrete terminal descriptors. -/
theorem claim_C7_witness :
    stepDescriptor TransferState.Completed (RegistryOp.update 5) =
      Except.error TransferError.AlreadyTerminal ∧
    runOps TransferState.Aborted
        [RegistryOp.update 1, RegistryOp.finalize Outcome.Completed] =
      TransferState.Aborted :=
  ⟨claim_C7.1 TransferState.Completed 5 rfl,
   claim_C7.2.1 TransferState.Aborted
     [RegistryOp.update 1, RegistryOp.finalize Outcome.Completed] rfl⟩

/-- A `w`-byte little-endian encoding has length `w`. -/
theorem toLE_length (w n : Nat) : (toLE w n).length = w := by
  induction w generalizing n with
  | zero => rfl
  | succ w ih => simp [toLE, ih]

/-- Decoding a little-endian encoding recovers the value modulo `256 ^ w`. -/
theorem fromLE_toLE (w n : Nat) : fromLE (toLE w n) = n % 256 ^ w := by
  induction w generalizing n with
  | zero => simp [toLE, fromLE, Nat.mod_one]
  | succ w ih =>
    simp only [toLE, fromLE, ih]
    have h1 : n % (256 * 256 ^ w) / 256 = n / 256 % 256 ^ w :=
      Nat.mod_mul_right_div_self n 256 (256 ^ w)
    have h2 : n % (256 * 256 ^ w) % 256 = n % 256 :=
      Nat.mod_mod_of_dvd n ⟨256 ^ w, rfl⟩
    calc n % 256 + 256 * (n / 256 % 256 ^ w)
        = n % (256 * 256 ^ w) % 256 + 256 * (n % (256 * 256 ^ w) / 256) := by
          rw [h1, h2]
      _ = n % (256 * 256 ^ w) := Nat.mod_add_div _ 256
      _ = n % 256 ^ (w + 1) := by rw [pow_succ, mul_comm]

/-- Taking the length of a leading segment of an append returns the segment. -/
theorem take_append_of_length (l1 l2 : List Nat) (w : Nat)
    (h : l1.length = w) : (l1 ++ l2).take w = l1 := by
  subst h
  exact List.take_left l1 l2

/-- Dropping the length of a leading segment of an append returns the rest. -/
theorem drop_append_of_length (l1 l2 : List Nat) (w : Nat)
    (h : l1.length = w) : (l1 ++ l2).drop w = l2 := by
  subst h
  exact List.drop_left l1 l2

/-- C8: a stream-mode frame consists of the 4 magic bytes
`0x4D 0x43 0x50 0x00`, a uint32 version, the 16 raw streamId bytes, a uint64
little-endian size, an optional uint32 flags field, followed by exactly
`size` payload bytes. -/
theorem claim_C8 (h : BinaryStreamHeader) (payload : List Nat)
    (hsid : h.streamId.length = 16) (hp : payload.length = h.size)
    (hv : h.version < 2 ^ 32) (hsz : h.size < 2 ^ 64) :
    (encodeFrame h payload).take 4 = [0x4D, 0x43, 0x50, 0x00] ∧
    fromLE (((encodeFrame h payload).drop 4).take 4) = h.version ∧
    ((encodeFrame h payload).drop 8).take 16 = h.streamId ∧
    fromLE (((encodeFrame h payload).drop 24).take 8) = h.size ∧
    (∀ f, h.flags = some f → f < 2 ^ 32 →
      fromLE (((encodeFrame h payload).drop 32).take 4) = f) ∧
    (encodeFrame h payload).drop (headerLength h) = payload ∧
    (encodeFrame h payload).length = headerLength h + h.size := by
  have e0 : encodeFrame h payload =
      magicBytes ++
        (toLE 4 h.version ++
          (h.streamId ++ (toLE 8 h.size ++ (flagsBytes h ++ payload)))) := by
    simp [encodeFrame, encodeHeader, List.append_assoc]
  have d4 : (encodeFrame h payload).drop 4 =
      toLE 4 h.version ++
        (h.streamId ++ (toLE 8 h.size ++ (flagsBytes h ++ payload))) := by
    rw [e0]
    exact drop_append_of_length _ _ 4 rfl
  have d8 : (encodeFrame h payload).drop 8 =
      h.streamId ++ (toLE 8 h.size ++ (flagsBytes h ++ payload)) := by
    have hd : ((encodeFrame h payload).drop 4).drop 4 =
        (encodeFrame h payload).drop 8 := List.drop_drop 4 4 _
    rw [← hd, d4]
    exact drop_append_of_length _ _ 4 (toLE_length 4 _)
  have d24 : (encodeFrame h payload).drop 24 =
      toLE 8 h.size ++ (flagsBytes h ++ payload) := by
    have hd : ((encodeFrame h payload).drop 8).drop 16 =
        (encodeFrame h payload).drop 24 := List.drop_drop 16 8 _
    rw [← hd, d8]
    exact drop_append_of_length _ _ 16 hsid
  have d32 : (encodeFrame h payload).drop 32 = flagsBytes h ++ payload := by
    have hd : ((encodeFrame h payload).drop 24).drop 8 =
        (encodeFrame h payload).drop 32 := List.drop_drop 8 24 _
    rw [← hd, d24]
    exact drop_append_of_length _ _ 8 (toLE_length 8 _)
  refine ⟨?_, ?_, ?_, ?_, ?_, ?_, ?_⟩
  · rw [e0]
    exact take_append_of_length _ _ 4 rfl
  · rw [d4, take_append_of_length _ _ 4 (toLE_length 4 _), fromLE_toLE]
    have he : (256 : Nat) ^ 4 = 2 ^ 32 := by norm_num
    rw [he]
    exact Nat.mod_eq_of_lt hv
  · rw [d8]
    exact take_append_of_length _ _ 16 hsid
  · rw [d24, take_append_of_length _ _ 8 (toLE_length 8 _), fromLE_toLE]
    have he : (256 : Nat) ^ 8 = 2 ^ 64 := by norm_num
    rw [he]
    exact Nat.mod_eq_of_lt hsz
  · intro f hf hflt
    have dfl : flagsBytes h = toLE 4 f := by simp [flagsBytes, hf]
    rw [d32, dfl, take_append_of_length _ _ 4 (toLE_length 4 _), fromLE_toLE]
    have he : (256 : Nat) ^ 4 = 2 ^ 32 := by norm_num
    rw [he]
    exact Nat.mod_eq_of_lt hflt
  · rcases hfl : h.flags with _ | f
    · have hh : headerLength h = 32 := by simp [headerLength, hfl]
      rw [hh, d32]
      simp [flagsBytes, hfl]
    · have hh : headerLength h = 36 := by simp [headerLength, hfl]
      have hd : ((encodeFrame h payload).drop 32).drop 4 =
          (encodeFrame h payload).drop 36 := List.drop_drop 4 32 _
      have dfl : flagsBytes h = toLE 4 f := by simp [flagsBytes, hfl]
      rw [hh, ← hd, d32, dfl]
      exact drop_append_of_length _ _ 4 (toLE_length 4 _)
  · rw [e0]
    rcases hfl : h.flags with _ | f <;>
      simp [List.length_append, magicBytes, toLE_length, hsid, hp,
        flagsBytes, headerLength, hfl] <;> omega

/-- Witness for C8 at a concrete frame: version 1, all-zero streamId,
2-byte payload, no flags. -/
theorem claim_C8_witness :
    (encodeFrame ⟨1, [0, 0, 0, 0, 0, 0, 0, 0, 0, 0, 0, 0, 0, 0, 0, 0], 2, none⟩
        [7, 9]).take 4 = [0x4D, 0x43, 0x50, 0x00] ∧
    fromLE (((encodeFrame
        ⟨1, [0, 0, 0, 0, 0, 0, 0, 0, 0, 0, 0, 0, 0, 0, 0, 0], 2, none⟩
        [7, 9]).drop 4).take 4) = 1 ∧
    ((encodeFrame ⟨1, [0, 0, 0, 0, 0, 0, 0, 0, 0, 0, 0, 0, 0, 0, 0, 0], 2, none⟩
        [7, 9]).drop 8).take 16 = [0, 0, 0, 0, 0, 0, 0, 0, 0, 0, 0, 0, 0, 0, 0, 0] ∧
    fromLE (((encodeFrame
        ⟨1, [0, 0, 0, 0, 0, 0, 0, 0, 0, 0, 0, 0, 0, 0, 0, 0], 2, none⟩
        [7, 9]).drop 24).take 8) = 2 ∧
    (∀ f, (none : Option Nat) = some f → f < 2 ^ 32 →
      fromLE (((encodeFrame
          ⟨1, [0, 0, 0, 0, 0, 0, 0, 0, 0, 0, 0, 0, 0, 0, 0, 0], 2, none⟩
          [7, 9]).drop 32).take 4) = f) ∧
    (encodeFrame ⟨1, [0, 0, 0, 0, 0, 0, 0, 0, 0, 0, 0, 0, 0, 0, 0, 0], 2, none⟩
        [7, 9]).drop
      (headerLength
        ⟨1, [0, 0, 0, 0, 0, 0, 0, 0, 0, 0, 0, 0, 0, 0, 0, 0], 2, none⟩) = [7, 9] ∧
    (encodeFrame ⟨1, [0, 0, 0, 0, 0, 0, 0, 0, 0, 0, 0, 0, 0, 0, 0, 0], 2, none⟩
        [7, 9]).length =
      headerLength
          ⟨1, [0, 0, 0, 0, 0, 0, 0, 0, 0, 0, 0, 0, 0, 0, 0, 0], 2, none⟩ + 2 :=
  claim_C8 ⟨1, [0, 0, 0, 0, 0, 0, 0, 0, 0, 0, 0, 0, 0, 0, 0, 0], 2, none⟩
    [7, 9] rfl rfl (by norm_num) (by norm_num)

end MCPBinary
